import Mathlib

/-!
Shallow embedding of the log-tail event-reconstruction engine of
`users.py` (class `UserHandler` and dataclass `User`).

Modelling conventions:
* Python `datetime` values are modelled by the `DateTime` structure below;
  comparison between two datetimes is lexicographic on the fields, which for
  field values in `datetime`'s legal ranges coincides with comparing the
  mixed-radix number `DateTime.key`.  All comparisons in the source are
  modelled through `key`.
* A raised Python exception that propagates out of a function is modelled by
  the function returning `none`.
* `lastLocation` holds Python values that are either ints (the dataclass
  default `(0, 0)`) or strings (regex groups); `PyVal` models that union.
* The Discord/bot side effects (channel sends) are modelled as an explicit
  trace of `(timestamp, message)` pairs recording each notification string
  produced during a cycle.
-/

/-- Model of a Python `datetime` value (fields of `datetime.datetime`
that the program uses). -/
structure DateTime where
  year : Nat
  month : Nat
  day : Nat
  hour : Nat
  minute : Nat
  second : Nat
  microsecond : Nat
deriving DecidableEq, Repr

/-- Mixed-radix linearisation of a datetime; the radices strictly bound the
legal ranges of Python `datetime` fields (month ≤ 12, day ≤ 31, hour ≤ 23,
minute, second ≤ 59, microsecond < 10^6), so `key` comparison agrees with
Python's lexicographic `datetime` comparison on all legal values. -/
def DateTime.key (d : DateTime) : Nat :=
  (((((d.year * 13 + d.month) * 32 + d.day) * 24 + d.hour) * 60 + d.minute)
      * 60 + d.second) * 1000000 + d.microsecond

/-- `datetime(1, 1, 1)`, the default `lastSeen` of a fresh `User`. -/
def dtMin : DateTime := ⟨1, 1, 1, 0, 0, 0, 0⟩

/-- A Python value that is either an int or a string (the two kinds of
value stored in `User.lastLocation`). -/
inductive PyVal where
  | int (n : Int)
  | str (s : String)
deriving DecidableEq, Repr

/-- The `User` dataclass of `users.py`. -/
structure User where
  name : String
  hoursAlive : Nat := 0
  recordHoursAlive : Nat := 0
  perks : List (String × String) := []
  online : Bool := false
  lastSeen : DateTime := dtMin
  lastLocation : PyVal × PyVal := (PyVal.int 0, PyVal.int 0)
  died : List DateTime := []
deriving DecidableEq, Repr

/-- `User(name)`: a dataclass instance with every other field defaulted. -/
def User.fresh (n : String) : User := { name := n }

/-- The `self.users` dict: an insertion-ordered association list from
user name to `User`. -/
abbrev Store := List (String × User)

/-- Dict lookup `self.users[name]` (also the `name in self.users` test via
`Option.isSome`). -/
def findUser : Store → String → Option User
  | [], _ => none
  | p :: t, n => if p.1 = n then some p.2 else findUser t n

/-- `UserHandler.getUser`: return the user for `name`, creating a fresh
default entry first when absent. -/
def getUser (s : Store) (n : String) : Store × User :=
  match findUser s n with
  | some u => (s, u)
  | none => (s ++ [(n, User.fresh n)], User.fresh n)

/-- Writing the (mutated) user object back under its dict key. -/
def setUser : Store → String → User → Store
  | [], _, _ => []
  | p :: t, n, u => (if p.1 = n then (n, u) else p) :: setUser t n u

/-! ### Character-level helpers for `splitLine` and the regex searches -/

/-- The ASCII whitespace stripped by Python `str.strip()`. -/
def isPyWs (c : Char) : Bool :=
  c = ' ' || c = '\t' || c = '\n' || c = '\r' || c = '\x0b' || c = '\x0c'

/-- Python `str.strip()`. -/
def pyStrip (l : List Char) : List Char :=
  ((l.dropWhile isPyWs).reverse.dropWhile isPyWs).reverse

/-- `s.split("]", 1)` when it yields two parts: the text before the first
`]` and the text after it; `none` when `]` does not occur (in which case the
two-target unpacking in `splitLine` raises `ValueError`). -/
def splitRBr : List Char → Option (List Char × List Char)
  | [] => none
  | c :: t =>
    if c = ']' then some ([], t)
    else (splitRBr t).map (fun p => (c :: p.1, p.2))

/-- Take all leading ASCII digits. -/
def takeDigits : List Char → List Char × List Char
  | [] => ([], [])
  | c :: t =>
    if c.isDigit then
      let p := takeDigits t
      (c :: p.1, p.2)
    else ([], c :: t)

/-- Take at most `n` leading ASCII digits. -/
def takeUpTo : Nat → List Char → List Char × List Char
  | 0, l => ([], l)
  | _ + 1, [] => ([], [])
  | n + 1, c :: t =>
    if c.isDigit then
      let p := takeUpTo n t
      (c :: p.1, p.2)
    else ([], c :: t)

/-- Numeric value of a digit string. -/
def digitsVal (l : List Char) : Nat :=
  l.foldl (fun a c => a * 10 + (c.toNat - 48)) 0

/-- Consume one expected character. -/
def expectCh (c : Char) : List Char → Option (List Char)
  | [] => none
  | x :: t => if x = c then some t else none

/-- Gregorian leap year, as validated by `datetime`. -/
def isLeap (y : Nat) : Bool :=
  y % 4 = 0 && (y % 100 ≠ 0 || y % 400 = 0)

/-- Days in a month, as validated by the `datetime` constructor. -/
def daysInMonth (y m : Nat) : Nat :=
  if m = 2 then (if isLeap y then 29 else 28)
  else if m = 4 || m = 6 || m = 9 || m = 11 then 30
  else 31

/-- `datetime.strptime(s, "%d-%m-%y %H:%M:%S.%f")`: day and month are one or
two digits, `%y` is exactly two digits (mapped to 1969–2068), the separator
whitespace is one-or-more whitespace characters, `%f` is one to six digits
scaled to microseconds, the whole string must be consumed, and all fields
must be in `datetime`'s legal ranges (including days-in-month). -/
def parseTimestamp (l : List Char) : Option DateTime := do
  let (ds, l1) := takeUpTo 2 l
  guard (ds ≠ [])
  let l2 ← expectCh '-' l1
  let (ms, l3) := takeUpTo 2 l2
  guard (ms ≠ [])
  let l4 ← expectCh '-' l3
  let (ys, l5) := takeUpTo 2 l4
  guard (ys.length = 2)
  let (wsp, l6) := l5.span isPyWs
  guard (wsp ≠ [])
  let (hs, l7) := takeUpTo 2 l6
  guard (hs ≠ [])
  let l8 ← expectCh ':' l7
  let (mins, l9) := takeUpTo 2 l8
  guard (mins ≠ [])
  let l10 ← expectCh ':' l9
  let (ss, l11) := takeUpTo 2 l10
  guard (ss ≠ [])
  let l12 ← expectCh '.' l11
  let (fs, l13) := takeUpTo 6 l12
  guard (fs ≠ [])
  guard (l13 = [])
  let day := digitsVal ds
  let month := digitsVal ms
  let y2 := digitsVal ys
  let year := if y2 ≤ 68 then 2000 + y2 else 1900 + y2
  let hour := digitsVal hs
  let minute := digitsVal mins
  let second := digitsVal ss
  let micro := digitsVal fs * 10 ^ (6 - fs.length)
  guard (1 ≤ month ∧ month ≤ 12 ∧ 1 ≤ day ∧ day ≤ daysInMonth year month
    ∧ hour ≤ 23 ∧ minute ≤ 59 ∧ second ≤ 59)
  pure ⟨year, month, day, hour, minute, second, micro⟩

/-- `UserHandler.splitLine`: strip the line, drop its first character, split
at the first `]`, and parse the timestamp; `none` models the `ValueError`
raised when the bracket or the timestamp cannot be parsed. -/
def splitLine (line : String) : Option (DateTime × String) :=
  match pyStrip line.toList with
  | [] => none
  | _ :: rest =>
    match splitRBr rest with
    | none => none
    | some (tsStr, msg) =>
      match parseTimestamp tsStr with
      | none => none
      | some t => some (t, String.mk msg)

/-- Python substring test `pat in s`. -/
def hasSub (p : List Char) : List Char → Bool
  | [] => p.isEmpty
  | c :: t => p.isPrefixOf (c :: t) || hasSub p t

/-- Python substring test on strings. -/
def strHas (pat s : String) : Bool := hasSub pat.toList s.toList

/-! ### Model of the two `re.search` calls in `handleLog`

Backtracking with greedy quantifiers: for a subpattern `(.*)"…` the group
takes the longest prefix whose following `"` leaves a suffix on which the
rest of the pattern matches, and likewise `.*\(` picks the rightmost viable
`(`; the search itself tries start positions left to right. -/

/-- Greedy `(.*)"` followed by continuation `k`: the captured group runs to
the rightmost `"` whose suffix satisfies `k`. -/
def quoteGroup {α : Type} (k : List Char → Option α) :
    List Char → Option (List Char × α)
  | [] => none
  | c :: t =>
    match quoteGroup k t with
    | some (g, r) => some (c :: g, r)
    | none =>
      if c = '"' then
        match k t with
        | some r => some ([], r)
        | none => none
      else none

/-- Greedy `.*\(` followed by continuation `k`: the rightmost `(` whose
suffix satisfies `k`. -/
def lastParen {α : Type} (k : List Char → Option α) : List Char → Option α
  | [] => none
  | c :: t =>
    match lastParen k t with
    | some r => some r
    | none => if c = '(' then k t else none

/-- `re.search` for a pattern beginning with `\"`: try start positions left
to right; at each `"` attempt the greedy group match. -/
def searchQuote {α : Type} (k : List Char → Option α) :
    List Char → Option (List Char × α)
  | [] => none
  | c :: t =>
    if c = '"' then
      match quoteGroup k t with
      | some r => some r
      | none => searchQuote k t
    else searchQuote k t

/-- Tail `(\d+),(\d+),\d+\)` of the disconnect pattern (after the `(`):
three nonempty digit runs separated by commas and closed by `)`. -/
def coordTailDisc (l : List Char) : Option (String × String) :=
  match takeDigits l with
  | (d1, ',' :: r1) =>
    if d1 = [] then none
    else
      match takeDigits r1 with
      | (d2, ',' :: r2) =>
        if d2 = [] then none
        else
          match takeDigits r2 with
          | (d3, ')' :: _) =>
            if d3 = [] then none else some (String.mk d1, String.mk d2)
          | _ => none
      | _ => none
  | _ => none

/-- Tail `(\d+),(\d+)` of the connect pattern (after the `(`): two nonempty
digit runs separated by a comma. -/
def coordTailConn (l : List Char) : Option (String × String) :=
  match takeDigits l with
  | (d1, ',' :: r1) =>
    if d1 = [] then none
    else
      match takeDigits r1 with
      | (d2, _) => if d2 = [] then none else some (String.mk d1, String.mk d2)
  | _ => none

/-- `re.search(r"\"(.*)\".*\((\d+),(\d+),\d+\)", message)`, returning the
three captured groups (name, x, y). -/
def searchDisc (msg : String) : Option (String × String × String) :=
  match searchQuote (lastParen coordTailDisc) msg.toList with
  | some (g, x, y) => some (String.mk g, x, y)
  | none => none

/-- `re.search(r"\"(.*)\".*\((\d+),(\d+)", message)`, returning the three
captured groups (name, x, y). -/
def searchConn (msg : String) : Option (String × String × String) :=
  match searchQuote (lastParen coordTailConn) msg.toList with
  | some (g, x, y) => some (String.mk g, x, y)
  | none => none

/-- The per-user update performed by both branches of `handleLog`: when the
event's timestamp is strictly newer than `lastSeen`, set `online`,
`lastSeen` and `lastLocation` together; otherwise leave the user unchanged
(stale event). -/
def applyEvt (onl : Bool) (t : DateTime) (loc : PyVal × PyVal) (u : User) :
    User :=
  if u.lastSeen.key < t.key then
    { u with online := onl, lastSeen := t, lastLocation := loc }
  else u

/-- `UserHandler.handleLog`.  `nd` is `self.notifyDisconnect`, `w` is
`self.lastUpdateTimestamp` at call time.  The result is `none` when the
`AttributeError` of a failed `re.search` propagates; otherwise it is the
updated store paired with the message string the method returns (`none`
models Python `None`). -/
def handleLog (nd : Bool) (w t : DateTime) (msg : String) (s : Store) :
    Option (Store × Option String) :=
  if strHas "disconnected" msg then
    (searchDisc msg).map (fun g =>
      let gu := getUser s g.1
      let u' := applyEvt false t (PyVal.str g.2.1, PyVal.str g.2.2) gu.2
      (setUser gu.1 g.1 u',
        if w.key < t.key then
          (if nd then some (":person_running: " ++ u'.name ++ " has left")
           else none)
        else none))
  else if strHas "fully connected" msg then
    (searchConn msg).map (fun g =>
      let gu := getUser s g.1
      let u' := applyEvt true t (PyVal.str g.2.1, PyVal.str g.2.2) gu.2
      (setUser gu.1 g.1 u', none))
  else some (s, none)

/-- One step of the backwards loop in `UserHandler.update`: `w` is the
`self.lastUpdateTimestamp` read throughout the loop (only reassigned after
it), `nt` is the local `newTimestamp`, `tr` is the trace of notification
messages produced so far (each paired with the timestamp of the line that
produced it).  The loop breaks at the first line whose timestamp is not
newer than `w`; a parse failure or a `handleLog` failure is an exception
that aborts the whole cycle (`none`), in which case line 69's assignment to
`self.lastUpdateTimestamp` never runs. -/
def procLines (nd : Bool) (w : DateTime) :
    DateTime → Store → List (DateTime × String) → List String →
    Option (DateTime × Store × List (DateTime × String))
  | nt, s, tr, [] => some (nt, s, tr)
  | nt, s, tr, line :: rest =>
    (splitLine line).bind (fun tm =>
      let nt' := if nt.key < tm.1.key then tm.1 else nt
      if w.key < tm.1.key then
        (handleLog nd w tm.1 tm.2 s).bind (fun sn =>
          procLines nd w nt' sn.1
            (tr ++ (sn.2.map (fun x => (tm.1, x))).toList) rest)
      else some (nt', s, tr))

/-- `UserHandler.update` (one cycle): `files` is the glob result, each file
given as its list of lines in file order.  Only `files[0]` is opened, and
its lines are iterated backwards (`FileReadBackwards`); with no matching
file the body is skipped entirely.  Returns the new
`self.lastUpdateTimestamp`, the store, and the notification trace. -/
def updateCycle (nd : Bool) (w : DateTime) (s : Store)
    (files : List (List String)) :
    Option (DateTime × Store × List (DateTime × String)) :=
  match files with
  | [] => some (w, s, [])
  | f :: _ => procLines nd w w s [] f.reverse

/-- The inner loop of `loadHistory` over one file's lines (forward order):
`handleLog(*self.splitLine(line))` with the returned message discarded; any
exception propagates. -/
def histLines (nd : Bool) (w : DateTime) : List String → Store → Option Store
  | [], s => some s
  | line :: rest, s =>
    (splitLine line).bind (fun tm =>
      (handleLog nd w tm.1 tm.2 s).bind (fun sn => histLines nd w rest sn.1))

/-- The outer loop of `loadHistory` over the (mtime-sorted) file list. -/
def histFiles (nd : Bool) (w : DateTime) :
    List (List String) → Store → Option Store
  | [], s => some s
  | f :: rest, s =>
    (histLines nd w f s).bind (fun s' => histFiles nd w rest s')

/-- `UserHandler.loadHistory`: replays every line of every historical file
through `handleLog`.  It reads but never assigns `self.lastUpdateTimestamp`
and never sends anything to the channel, so the returned watermark is the
input one and the notification trace is empty; only the store changes. -/
def loadHistory (nd : Bool) (w : DateTime) (files : List (List String))
    (s : Store) : Option (DateTime × Store × List (DateTime × String)) :=
  (histFiles nd w files s).map (fun s' => (w, s', []))

/-- A classified connect/disconnect event for a single entity, as consumed
by the per-user update `applyEvt` inside `handleLog` (`online = true` for
"fully connected", `false` for "disconnected"). -/
structure LogEvt where
  online : Bool
  t : DateTime
  loc : PyVal × PyVal
deriving DecidableEq, Repr

/-- Fold a list of classified events over one user's state with the
monotonic update rule of `handleLog`. -/
def applyEvts (u : User) (l : List LogEvt) : User :=
  l.foldl (fun v e => applyEvt e.online e.t e.loc v) u

/-! ### Claims -/

/-- **C10**: in each update cycle, when the active-file pattern matches more
than one file only the first file of the match list is read (the cycle's
result is the same as if that file were the only match), and when zero files
match the cycle reads no lines (watermark, store and trace are untouched). -/
theorem c10_first_file_only (nd : Bool) (w : DateTime) (s : Store)
    (f : List String) (rest : List (List String)) :
    updateCycle nd w s (f :: rest) = updateCycle nd w s [f]
      ∧ updateCycle nd w s [] = some (w, s, []) :=
  ⟨rfl, rfl⟩

/-- **C8**: processing `[01-01-24 10:00:00.000]"Alice" fully connected
(5,5,0)` followed by `[01-01-24 10:05:00.000]"Alice" disconnected (6,6,0)`
leaves Alice with `online = false`, `lastLocation` the pair of coordinate
strings `("6", "6")`, and `lastSeen` equal to the 10:05:00 timestamp. -/
theorem c8_scenario :
    loadHistory true ⟨2026, 1, 1, 0, 0, 0, 0⟩
      [["[01-01-24 10:00:00.000]\"Alice\" fully connected (5,5,0)",
        "[01-01-24 10:05:00.000]\"Alice\" disconnected (6,6,0)"]] []
    = some (⟨2026, 1, 1, 0, 0, 0, 0⟩,
        [("Alice",
          { name := "Alice", online := false,
            lastSeen := ⟨2024, 1, 1, 10, 5, 0, 0⟩,
            lastLocation := (PyVal.str "6", PyVal.str "6") })], []) := by
  decide

/-! ### Store lemmas -/

lemma findUser_append_absent (s : Store) (n : String) (u : User)
    (h : findUser s n = none) : findUser (s ++ [(n, u)]) n = some u := by
  induction s with
  | nil => simp [findUser]
  | cons a t ih =>
    by_cases ha : a.1 = n
    · simp [findUser, ha] at h
    · simp only [findUser, List.cons_append, if_neg ha] at h ⊢
      exact ih h

lemma findUser_setUser (s : Store) (n : String) (u v : User)
    (h : findUser s n = some v) : findUser (setUser s n u) n = some u := by
  induction s with
  | nil => simp [findUser] at h
  | cons a t ih =>
    by_cases ha : a.1 = n
    · simp [findUser, setUser, ha]
    · simp only [findUser, if_neg ha] at h
      simp only [setUser, if_neg ha, findUser, if_neg ha]
      exact ih h

lemma setUser_setUser (s : Store) (n : String) (u : User) :
    setUser (setUser s n u) n u = setUser s n u := by
  induction s with
  | nil => rfl
  | cons a t ih =>
    by_cases ha : a.1 = n
    · simp [setUser, ha, ih]
    · simp [setUser, ha, ih]

lemma findUser_getUser (s : Store) (n : String) :
    findUser (getUser s n).1 n = some (getUser s n).2 := by
  unfold getUser
  cases h : findUser s n with
  | some u => simpa using h
  | none => simp [findUser_append_absent s n _ h]

lemma applyEvt_applyEvt (b : Bool) (t : DateTime) (loc : PyVal × PyVal)
    (u : User) :
    applyEvt b t loc (applyEvt b t loc u) = applyEvt b t loc u := by
  unfold applyEvt
  split_ifs <;> rfl

/-- **C2**: applying the same parsed event (same timestamp and message,
hence same name, kind and coordinates) to the store twice yields the same
store as applying it once: after the first application the entity's
`lastSeen` is at least the event's timestamp, so the strict
`timestamp > lastSeen` guard makes the second application a no-op (and the
returned message is also unchanged). -/
theorem c2_idempotent (nd : Bool) (w t : DateTime) (msg : String)
    (s s₁ : Store) (r : Option String)
    (h : handleLog nd w t msg s = some (s₁, r)) :
    handleLog nd w t msg s₁ = some (s₁, r) := by
  unfold handleLog at h ⊢
  cases hd : strHas "disconnected" msg with
  | true =>
    simp only [hd, if_true] at h ⊢
    rw [Option.map_eq_some'] at h
    obtain ⟨g, hs, hfg⟩ := h
    simp only [Prod.mk.injEq] at hfg
    obtain ⟨hA, hB⟩ := hfg
    rw [hs]
    simp only [Option.map_some', Option.some.injEq, Prod.mk.injEq]
    have hfind : findUser s₁ g.1 =
        some (applyEvt false t (PyVal.str g.2.1, PyVal.str g.2.2)
          (getUser s g.1).2) := by
      rw [← hA]
      exact findUser_setUser _ _ _ _ (findUser_getUser s g.1)
    have hget : getUser s₁ g.1 =
        (s₁, applyEvt false t (PyVal.str g.2.1, PyVal.str g.2.2)
          (getUser s g.1).2) := by
      unfold getUser; rw [hfind]; rfl
    rw [hget]
    simp only [applyEvt_applyEvt]
    exact ⟨by rw [← hA, setUser_setUser], hB⟩
  | false =>
    simp only [hd, Bool.false_eq_true, if_false] at h ⊢
    cases hc : strHas "fully connected" msg with
    | true =>
      simp only [hc, if_true] at h ⊢
      rw [Option.map_eq_some'] at h
      obtain ⟨g, hs, hfg⟩ := h
      simp only [Prod.mk.injEq] at hfg
      obtain ⟨hA, hB⟩ := hfg
      rw [hs]
      simp only [Option.map_some', Option.some.injEq, Prod.mk.injEq]
      have hfind : findUser s₁ g.1 =
          some (applyEvt true t (PyVal.str g.2.1, PyVal.str g.2.2)
            (getUser s g.1).2) := by
        rw [← hA]
        exact findUser_setUser _ _ _ _ (findUser_getUser s g.1)
      have hget : getUser s₁ g.1 =
          (s₁, applyEvt true t (PyVal.str g.2.1, PyVal.str g.2.2)
            (getUser s g.1).2) := by
        unfold getUser; rw [hfind]; rfl
      rw [hget]
      simp only [applyEvt_applyEvt]
      exact ⟨by rw [← hA, setUser_setUser], hB⟩
    | false =>
      simp only [hc, Bool.false_eq_true, if_false,
        Option.some.injEq, Prod.mk.injEq] at h ⊢
      exact ⟨trivial, h.2⟩

/-- Witness for C2 at a concrete disconnect event on the empty store. -/
theorem c2_idempotent_witness :
    handleLog true dtMin ⟨2024, 2, 2, 1, 0, 0, 0⟩
      "\"Eve\" disconnected (3,4,5)" []
      = some ([("Eve",
          { name := "Eve", online := false,
            lastSeen := ⟨2024, 2, 2, 1, 0, 0, 0⟩,
            lastLocation := (PyVal.str "3", PyVal.str "4") })],
        some ":person_running: Eve has left")
    ∧ handleLog true dtMin ⟨2024, 2, 2, 1, 0, 0, 0⟩
      "\"Eve\" disconnected (3,4,5)"
      [("Eve",
        { name := "Eve", online := false,
          lastSeen := ⟨2024, 2, 2, 1, 0, 0, 0⟩,
          lastLocation := (PyVal.str "3", PyVal.str "4") })]
      = some ([("Eve",
          { name := "Eve", online := false,
            lastSeen := ⟨2024, 2, 2, 1, 0, 0, 0⟩,
            lastLocation := (PyVal.str "3", PyVal.str "4") })],
        some ":person_running: Eve has left") :=
  ⟨by decide, c2_idempotent true dtMin ⟨2024, 2, 2, 1, 0, 0, 0⟩
    "\"Eve\" disconnected (3,4,5)" [] _ _ (by decide)⟩

/-- The abort of a history batch at any malformed line: once some line of a
file fails `splitLine`, the whole run of `histLines` over that file is the
propagated exception. -/
lemma histLines_abort (nd : Bool) (w : DateTime) (line : String)
    (hbad : splitLine line = none) :
    ∀ (l : List String) (s : Store), line ∈ l → histLines nd w l s = none := by
  intro l
  induction l with
  | nil => intro s hm; cases hm
  | cons a tl ih =>
    intro s hm
    rcases List.mem_cons.mp hm with rfl | hm'
    · simp [histLines, hbad]
    · cases hsp : splitLine a with
      | none => simp [histLines, hsp]
      | some tm =>
        cases hh : handleLog nd w tm.1 tm.2 s with
        | none => simp [histLines, hsp, hh]
        | some sn =>
          simp only [histLines, hsp, Option.some_bind, hh]
          exact ih _ hm'

/-- Lifting `histLines_abort` through the file list. -/
lemma histFiles_abort (nd : Bool) (w : DateTime) (lf : List String)
    (line : String) (hl : line ∈ lf) (hbad : splitLine line = none) :
    ∀ (files : List (List String)) (s : Store), lf ∈ files →
      histFiles nd w files s = none := by
  intro files
  induction files with
  | nil => intro s hm; cases hm
  | cons g tl ih =>
    intro s hm
    rcases List.mem_cons.mp hm with rfl | hm'
    · simp only [histFiles, histLines_abort nd w line hbad lf s hl,
        Option.none_bind]
    · cases hg : histLines nd w g s with
      | none => simp [histFiles, hg]
      | some s1 =>
        simp only [histFiles, hg, Option.some_bind]
        exact ih _ hm'

/-- **C5 (counterexample)**: the claim says the batch-processing callers
skip a line whose bracketed timestamp cannot be parsed and continue with the
remaining lines.  In fact neither `loadHistory` nor `update` catches the
`ValueError` from `splitLine`: with the unparseable line `"garbage"` in the
batch, both runs abort with the propagated exception (`none`) instead of
processing the remaining well-formed Alice line. -/
theorem c5_counterexample :
    loadHistory true ⟨2026, 1, 1, 0, 0, 0, 0⟩
      [["garbage", "[01-01-24 10:00:00.000]\"Alice\" fully connected (5,5,0)"]]
      [] = none
    ∧ updateCycle true ⟨2020, 1, 1, 0, 0, 0, 0⟩ []
      [["[01-01-24 10:00:00.000]\"Alice\" fully connected (5,5,0)", "garbage"]]
      = none :=
  ⟨by decide, by decide⟩

/-- **C5 (amended)**: a line whose leading bracketed timestamp cannot be
parsed raises `ValueError` in `splitLine`; the batch-processing callers do
not catch it, so the whole batch aborts — here: a history load containing
any such line produces no result state at all. -/
theorem c5_amended (nd : Bool) (w : DateTime) (files : List (List String))
    (s : Store) (lf : List String) (line : String)
    (hf : lf ∈ files) (hl : line ∈ lf) (hbad : splitLine line = none) :
    loadHistory nd w files s = none := by
  unfold loadHistory
  rw [histFiles_abort nd w lf line hl hbad files s hf]
  rfl

/-- Witness for the amended C5 at a concrete two-line batch. -/
theorem c5_amended_witness :
    ["oops", "[02-01-24 11:00:00.000]\"Bob\" fully connected (1,2,3)"]
        ∈ [["oops", "[02-01-24 11:00:00.000]\"Bob\" fully connected (1,2,3)"]]
    ∧ "oops" ∈ ["oops", "[02-01-24 11:00:00.000]\"Bob\" fully connected (1,2,3)"]
    ∧ splitLine "oops" = none
    ∧ loadHistory false dtMin
        [["oops", "[02-01-24 11:00:00.000]\"Bob\" fully connected (1,2,3)"]]
        [] = none :=
  ⟨by decide, by decide, by decide,
    c5_amended false dtMin
      [["oops", "[02-01-24 11:00:00.000]\"Bob\" fully connected (1,2,3)"]]
      [] ["oops", "[02-01-24 11:00:00.000]\"Bob\" fully connected (1,2,3)"]
      "oops" (by decide) (by decide) (by decide)⟩

/-- **C6 (counterexample)**: the claim says a message containing the
"disconnected" (or "fully connected") marker but not matching the extraction
pattern is skipped with no error propagating to `handleLog`'s caller.  In
fact `re.search` returns `None` and `matches.group(1)` raises
`AttributeError`, which propagates (`none`), for both markers. -/
theorem c6_counterexample :
    handleLog true dtMin ⟨2024, 1, 1, 0, 0, 0, 0⟩ "foo disconnected" [] = none
    ∧ handleLog true dtMin ⟨2024, 1, 1, 0, 0, 0, 0⟩ "foo fully connected" []
      = none :=
  ⟨by decide, by decide⟩

/-- **C6 (amended)**: for every message that contains the "disconnected"
marker (or, failing that, the "fully connected" marker) but does not match
the quoted-name-and-coordinates pattern, `handleLog` raises an error that
propagates to its caller; no entity state is mutated by such a line (the
call produces no updated store at all). -/
theorem c6_amended (nd : Bool) (w t : DateTime) (msg : String) (s : Store) :
    (strHas "disconnected" msg = true → searchDisc msg = none →
      handleLog nd w t msg s = none)
    ∧ (strHas "disconnected" msg = false →
      strHas "fully connected" msg = true → searchConn msg = none →
      handleLog nd w t msg s = none) := by
  constructor
  · intro h1 h2
    simp [handleLog, h1, h2]
  · intro h1 h2 h3
    simp [handleLog, h1, h2, h3]

/-- Witness for the amended C6 at a concrete pattern-free disconnect
message. -/
theorem c6_amended_witness :
    strHas "disconnected" "bar disconnected (" = true
    ∧ searchDisc "bar disconnected (" = none
    ∧ handleLog false dtMin dtMin "bar disconnected (" [] = none :=
  ⟨by decide, by decide,
    (c6_amended false dtMin dtMin "bar disconnected (" []).1
      (by decide) (by decide)⟩

/-- **C7**: history replay leaves the watermark exactly as it was and emits
no notification, while the store is exactly the fold of `handleLog` over all
lines of all files (`histFiles`): `loadHistory` discards the messages
returned by `handleLog` and never assigns `lastUpdateTimestamp`. -/
theorem c7_history_frame (nd : Bool) (w : DateTime)
    (files : List (List String)) (s : Store) (w' : DateTime) (s' : Store)
    (tr : List (DateTime × String))
    (h : loadHistory nd w files s = some (w', s', tr)) :
    w' = w ∧ tr = [] ∧ histFiles nd w files s = some s' := by
  unfold loadHistory at h
  cases hh : histFiles nd w files s with
  | none => rw [hh] at h; simp at h
  | some s0 =>
    rw [hh] at h
    simp only [Option.map_some', Option.some.injEq, Prod.mk.injEq] at h
    obtain ⟨h1, h2, h3⟩ := h
    exact ⟨h1.symm, h3.symm, by rw [h2]⟩


/-- Witness for C7 on a concrete interleaved history file: the watermark is
preserved, the trace is empty, and the store is populated with Bob and
Carol. -/
theorem c7_history_frame_witness :
    (⟨2026, 1, 1, 0, 0, 0, 0⟩ : DateTime) = ⟨2026, 1, 1, 0, 0, 0, 0⟩
    ∧ ([] : List (DateTime × String)) = []
    ∧ histFiles true ⟨2026, 1, 1, 0, 0, 0, 0⟩
      [["[01-01-24 11:00:00.000]\"Bob\" fully connected (7,8,0)",
        "[01-01-24 11:30:00.000]\"Bob\" disconnected (9,9,0)",
        "[01-01-24 12:00:00.000]\"Carol\" fully connected (2,3,0)"]] []
      = some
        [("Bob",
          { name := "Bob", online := false,
            lastSeen := ⟨2024, 1, 1, 11, 30, 0, 0⟩,
            lastLocation := (PyVal.str "9", PyVal.str "9") }),
         ("Carol",
          { name := "Carol", online := true,
            lastSeen := ⟨2024, 1, 1, 12, 0, 0, 0⟩,
            lastLocation := (PyVal.str "2", PyVal.str "3") })] :=
  c7_history_frame true ⟨2026, 1, 1, 0, 0, 0, 0⟩ _ [] _ _ _ (by decide)

/-- **C9**: processing a connect or disconnect event whose quoted name is
not yet in the store inserts a default-initialized entry for that name
(`getUser` appends `User(name)`: offline, `lastSeen = datetime(1,1,1)`,
`lastLocation = (0,0)`), and the stored entry is exactly that default with
the monotonic update applied on top — in particular, when the event's
timestamp is stale (not above the minimum timestamp) the entry stays the
untouched default. -/
theorem c9_fresh_entry (nd : Bool) (w t : DateTime) (msg name x y : String)
    (s s' : Store) (r : Option String)
    (hcase : (strHas "disconnected" msg = true
        ∧ searchDisc msg = some (name, x, y))
      ∨ (strHas "disconnected" msg = false
        ∧ strHas "fully connected" msg = true
        ∧ searchConn msg = some (name, x, y)))
    (habs : findUser s name = none)
    (hrun : handleLog nd w t msg s = some (s', r)) :
    (∃ b, findUser s' name =
      some (applyEvt b t (PyVal.str x, PyVal.str y) (User.fresh name)))
    ∧ (t.key ≤ dtMin.key → findUser s' name = some (User.fresh name)) := by
  have hg : getUser s name = (s ++ [(name, User.fresh name)], User.fresh name) := by
    unfold getUser; rw [habs]
  have hfa := findUser_append_absent s name (User.fresh name) habs
  rcases hcase with ⟨hd, hs⟩ | ⟨hd, hc, hs⟩
  · unfold handleLog at hrun
    simp only [hd, if_true, hs, Option.map_some', Option.some.injEq,
      Prod.mk.injEq] at hrun
    obtain ⟨hA, hB⟩ := hrun
    have hA' : setUser (s ++ [(name, User.fresh name)]) name
        (applyEvt false t (PyVal.str x, PyVal.str y) (User.fresh name)) = s' := by
      rw [hg] at hA; exact hA
    have hres : findUser s' name =
        some (applyEvt false t (PyVal.str x, PyVal.str y) (User.fresh name)) := by
      rw [← hA']
      exact findUser_setUser _ _ _ _ hfa
    refine ⟨⟨false, hres⟩, fun hstale => ?_⟩
    have hnot : ¬ ((User.fresh name).lastSeen.key < t.key) := by
      have hfr : (User.fresh name).lastSeen = dtMin := rfl
      rw [hfr]; omega
    have happ : applyEvt false t (PyVal.str x, PyVal.str y) (User.fresh name)
        = User.fresh name := by
      unfold applyEvt; rw [if_neg hnot]
    rw [happ] at hres
    exact hres
  · unfold handleLog at hrun
    simp only [hd, Bool.false_eq_true, if_false, hc, if_true, hs,
      Option.map_some', Option.some.injEq, Prod.mk.injEq] at hrun
    obtain ⟨hA, hB⟩ := hrun
    have hA' : setUser (s ++ [(name, User.fresh name)]) name
        (applyEvt true t (PyVal.str x, PyVal.str y) (User.fresh name)) = s' := by
      rw [hg] at hA; exact hA
    have hres : findUser s' name =
        some (applyEvt true t (PyVal.str x, PyVal.str y) (User.fresh name)) := by
      rw [← hA']
      exact findUser_setUser _ _ _ _ hfa
    refine ⟨⟨true, hres⟩, fun hstale => ?_⟩
    have hnot : ¬ ((User.fresh name).lastSeen.key < t.key) := by
      have hfr : (User.fresh name).lastSeen = dtMin := rfl
      rw [hfr]; omega
    have happ : applyEvt true t (PyVal.str x, PyVal.str y) (User.fresh name)
        = User.fresh name := by
      unfold applyEvt; rw [if_neg hnot]
    rw [happ] at hres
    exact hres

/-- Witness for C9: a stale disconnect for an unknown name inserts the
untouched default entry. -/
theorem c9_fresh_entry_witness :
    (∃ b, findUser [("Bob", User.fresh "Bob")] "Bob" =
      some (applyEvt b dtMin (PyVal.str "1", PyVal.str "2") (User.fresh "Bob")))
    ∧ (dtMin.key ≤ dtMin.key →
      findUser [("Bob", User.fresh "Bob")] "Bob" = some (User.fresh "Bob")) :=
  c9_fresh_entry true dtMin dtMin "\"Bob\" disconnected (1,2,3)" "Bob" "1" "2"
    [] [("Bob", User.fresh "Bob")] none (Or.inl ⟨by decide, by decide⟩)
    (by decide) (by decide)

/-- Two events with distinct timestamps commute through the guarded
per-user update: whichever is applied first, the later-timestamped update
wins and the stale one is dropped. -/
lemma applyEvt_swap (x y : LogEvt) (u : User) (h : x.t.key ≠ y.t.key) :
    applyEvt y.online y.t y.loc (applyEvt x.online x.t x.loc u)
      = applyEvt x.online x.t x.loc (applyEvt y.online y.t y.loc u) := by
  unfold applyEvt
  split_ifs with h1 h2 h3 h4 h5 h6 h7 <;> first
    | rfl
    | (simp only [] at *; omega)

/-- **C1**: for any entity, applying connect/disconnect events with
pairwise distinct timestamps in any order yields the same final entity
state as applying them in chronological order (any two application orders
of the same event set agree, chronological order being one of them): the
`timestamp > lastSeen` guard makes distinct-timestamp events commute. -/
theorem c1_perm (u : User) (l₁ l₂ : List LogEvt) (hp : l₁.Perm l₂)
    (hd : l₁.Pairwise (fun a b => a.t.key ≠ b.t.key)) :
    applyEvts u l₁ = applyEvts u l₂ := by
  induction hp generalizing u with
  | nil => rfl
  | cons x p ih =>
    have hd' := (List.pairwise_cons.mp hd).2
    simpa [applyEvts, List.foldl_cons] using
      ih (applyEvt x.online x.t x.loc u) hd'
  | swap x y t =>
    have hxy : y.t.key ≠ x.t.key := (List.pairwise_cons.mp hd).1 x (by simp)
    simp only [applyEvts, List.foldl_cons]
    rw [applyEvt_swap y x u hxy]
  | trans p1 p2 ih1 ih2 =>
    have hd2 := (p1.pairwise_iff (fun hab h => hab h.symm)).mp hd
    exact (ih1 u hd).trans (ih2 u hd2)

/-- Witness for C1: connect@10:00 then disconnect@05:00 equals the reversed
order, and the result is online with `lastSeen` 10:00. -/
theorem c1_perm_witness :
    applyEvts (User.fresh "A")
      [⟨true, ⟨2024, 1, 1, 10, 0, 0, 0⟩, (PyVal.str "1", PyVal.str "1")⟩,
       ⟨false, ⟨2024, 1, 1, 5, 0, 0, 0⟩, (PyVal.str "2", PyVal.str "2")⟩]
    = applyEvts (User.fresh "A")
      [⟨false, ⟨2024, 1, 1, 5, 0, 0, 0⟩, (PyVal.str "2", PyVal.str "2")⟩,
       ⟨true, ⟨2024, 1, 1, 10, 0, 0, 0⟩, (PyVal.str "1", PyVal.str "1")⟩]
    ∧ (applyEvts (User.fresh "A")
        [⟨true, ⟨2024, 1, 1, 10, 0, 0, 0⟩, (PyVal.str "1", PyVal.str "1")⟩,
         ⟨false, ⟨2024, 1, 1, 5, 0, 0, 0⟩, (PyVal.str "2", PyVal.str "2")⟩]).online
      = true
    ∧ (applyEvts (User.fresh "A")
        [⟨true, ⟨2024, 1, 1, 10, 0, 0, 0⟩, (PyVal.str "1", PyVal.str "1")⟩,
         ⟨false, ⟨2024, 1, 1, 5, 0, 0, 0⟩, (PyVal.str "2", PyVal.str "2")⟩]).lastSeen
      = ⟨2024, 1, 1, 10, 0, 0, 0⟩ :=
  ⟨c1_perm (User.fresh "A") _ _
      (List.Perm.swap _ _ _) (by decide), by decide, by decide⟩

/-- Trace invariant of the backwards loop: every notification it appends
comes from a line whose timestamp is strictly above the cycle's watermark
`w`, and is bounded by the final `newTimestamp`. -/
lemma procLines_trace (nd : Bool) (w : DateTime) :
    ∀ (l : List String) (nt : DateTime) (s : Store)
      (tr : List (DateTime × String)) res,
      procLines nd w nt s tr l = some res →
      nt.key ≤ res.1.key ∧
        ∀ p ∈ res.2.2, p ∈ tr ∨ (w.key < p.1.key ∧ p.1.key ≤ res.1.key) := by
  intro l
  induction l with
  | nil =>
    intro nt s tr res h
    simp only [procLines, Option.some.injEq] at h
    subst h
    exact ⟨Nat.le_refl _, fun p hp => Or.inl hp⟩
  | cons line rest ih =>
    intro nt s tr res h
    cases hsp : splitLine line with
    | none => rw [procLines, hsp] at h; simp at h
    | some tm =>
      rw [procLines, hsp] at h
      simp only [Option.some_bind] at h
      by_cases hw : w.key < tm.1.key
      · rw [if_pos hw] at h
        cases hh : handleLog nd w tm.1 tm.2 s with
        | none => rw [hh] at h; simp at h
        | some sn =>
          rw [hh] at h
          simp only [Option.some_bind] at h
          obtain ⟨h1, h2⟩ := ih _ _ _ _ h
          have hnt : nt.key ≤ (if nt.key < tm.1.key then tm.1 else nt).key := by
            split_ifs with hc <;> omega
          have htm : tm.1.key ≤ (if nt.key < tm.1.key then tm.1 else nt).key := by
            split_ifs with hc <;> omega
          refine ⟨Nat.le_trans hnt h1, fun p hp => ?_⟩
          rcases h2 p hp with hmem | hlt
          · rcases List.mem_append.mp hmem with hmem' | hopt
            · exact Or.inl hmem'
            · cases hsn : sn.2 with
              | none => rw [hsn] at hopt; simp at hopt
              | some msgStr =>
                rw [hsn] at hopt
                simp only [Option.map_some', Option.toList_some,
                  List.mem_singleton] at hopt
                subst hopt
                exact Or.inr ⟨hw, Nat.le_trans htm h1⟩
          · exact Or.inr hlt
      · rw [if_neg hw] at h
        simp only [Option.some.injEq] at h
        subst h
        constructor
        · show nt.key ≤ (if nt.key < tm.1.key then tm.1 else nt).key
          split_ifs with hc <;> omega
        · exact fun p hp => Or.inl hp

/-- **C4**: in a completed update cycle, a line whose timestamp is at or
below the watermark current while the cycle runs never produces a
notification: every notification in the cycle's trace has a timestamp
strictly above the starting watermark `w`; moreover the watermark never
decreases and bounds every notified timestamp, so a line notified in this
cycle is at or below every later cycle's watermark and can never be
notified again when re-read. -/
theorem c4_no_stale_notification (nd : Bool) (w : DateTime) (s : Store)
    (files : List (List String)) (w' : DateTime) (s' : Store)
    (tr : List (DateTime × String))
    (h : updateCycle nd w s files = some (w', s', tr)) :
    w.key ≤ w'.key ∧ ∀ p ∈ tr, w.key < p.1.key ∧ p.1.key ≤ w'.key := by
  cases files with
  | nil =>
    simp only [updateCycle, Option.some.injEq, Prod.mk.injEq] at h
    obtain ⟨h1, h2, h3⟩ := h
    subst h1; subst h3
    exact ⟨Nat.le_refl _, fun p hp => absurd hp (by simp)⟩
  | cons f rest =>
    have := procLines_trace nd w f.reverse w s [] (w', s', tr) h
    obtain ⟨h1, h2⟩ := this
    refine ⟨h1, fun p hp => ?_⟩
    rcases h2 p hp with hmem | hlt
    · cases hmem
    · exact hlt

/-- Witness for C4 on a concrete two-line cycle that notifies Alice's
disconnect. -/
theorem c4_no_stale_notification_witness :
    (⟨2024, 1, 1, 9, 0, 0, 0⟩ : DateTime).key
      ≤ (⟨2024, 1, 1, 10, 5, 0, 0⟩ : DateTime).key
    ∧ ∀ p ∈ [((⟨2024, 1, 1, 10, 5, 0, 0⟩ : DateTime),
        ":person_running: Alice has left")],
      (⟨2024, 1, 1, 9, 0, 0, 0⟩ : DateTime).key < p.1.key
        ∧ p.1.key ≤ (⟨2024, 1, 1, 10, 5, 0, 0⟩ : DateTime).key :=
  c4_no_stale_notification true ⟨2024, 1, 1, 9, 0, 0, 0⟩ []
    [["[01-01-24 10:00:00.000]\"Alice\" fully connected (5,5,0)",
      "[01-01-24 10:05:00.000]\"Alice\" disconnected (6,6,0)"]]
    ⟨2024, 1, 1, 10, 5, 0, 0⟩
    [("Alice",
      { name := "Alice", online := false,
        lastSeen := ⟨2024, 1, 1, 10, 5, 0, 0⟩,
        lastLocation := (PyVal.str "6", PyVal.str "6") })]
    [((⟨2024, 1, 1, 10, 5, 0, 0⟩ : DateTime),
      ":person_running: Alice has left")]
    (by decide)
